import Mathlib

/-!
Verification of the HyperBlend per-wavelength optimization scheduler
(`src/optimization.py`) against its natural-language specification.

The development shallowly embeds the module:

* module-level tuning constants (`lb`, `ub`, `density_scale`, `ftol`,
  `ftol_abs`, `xtol`, `diffstep`) become rational constants;
* the starting-guess estimator `get_starting_guess` becomes a pure
  function on rationals;
* the external Blender simulator is an oracle (`SimOracle`) mapping the
  render inputs to a reflectance/transmittance pair, and the per-run
  state (`OptState`) tracks the persisted subresults together with a
  counter of simulator invocations;
* a scipy optimization routine is abstracted as a `Strategy`: the
  sequence of parameter vectors at which it evaluates the objective,
  plus the parameter vector it returns (`res.x`).  Theorems quantify
  over all strategies, so they hold for whatever the library does;
* the per-wavelength driver `optimize_single_wl` becomes a function
  from the pre-state to `Except String OptState` (an exception models
  the `raise` on an unrecognized optimizer name);
* index bookkeeping of `run_optimization_in_batches` and the spectral
  down-sampling slice `targets[0:-1:resolution]` of `run_optimization`
  become list computations;
* the aggregator `make_final_result` becomes a function of the
  previously persisted final result (`none` models the `OSError` of a
  missing file), the wall-clock input, and the collected subresults.

Real-valued quantities that pass through `math.sqrt` / `np.sqrt`
(the objective value and the RMSE statistics) live in `ℝ`; everything
the control flow branches on is kept in `ℚ` so that it is computable.
-/

namespace HyperBlend

/-! ## Module constants (src/optimization.py lines 63-80) -/

/-- Lower bounds `lb = [0.01, 0.01, -0.5, 0]`. -/
def lb : List ℚ := [0.01, 0.01, -0.5, 0]

/-- Upper bounds `ub = [1, 1, 0.5, 1]`. -/
def ub : List ℚ := [1, 1, 0.5, 1]

/-- Density scaling factor `density_scale = 200` applied to the two
density parameters before rendering, and to the distance term. -/
def density_scale : ℚ := 200

/-- Function-value tolerance `ftol = 1e-2` for least-squares. -/
def ftol : ℚ := 0.01

/-- Absolute termination threshold `ftol_abs = 1.0` for basin hopping. -/
def ftol_abs : ℚ := 1.0

/-- Parameter tolerance `xtol = 1e-5` for least-squares. -/
def xtol : ℚ := 0.00001

/-- Finite-difference step `diffstep = 0.005`. -/
def diffstep : ℚ := 0.005

/-! ## Starting-guess estimator (`get_starting_guess`, lines 517-528) -/

/-- The inner helper `f(coeffs)` of `get_starting_guess`:
`coeffs[2]*absorption*absorption + coeffs[1]*absorption + coeffs[0]`.
A coefficient list `[c0, c1, c2]` is modelled as the triple `(c0, c1, c2)`. -/
def quad_eval (coeffs : ℚ × ℚ × ℚ) (absorption : ℚ) : ℚ :=
  coeffs.2.2 * absorption * absorption + coeffs.2.1 * absorption + coeffs.1

/-- `get_starting_guess(absorption)`: the four fixed quadratic
regressions, returned in source order (absorption density, scattering
density, scattering anisotropy, mix factor). -/
def get_starting_guess (absorption : ℚ) : List ℚ :=
  [quad_eval (0.15319704, 0.13493788, 0.43538607) absorption,
   quad_eval (0.59922746, -0.0009426, -0.31473394) absorption,
   quad_eval (0.29456347, -0.24329242, 0.14122699) absorption,
   quad_eval (0.793028, 0.2839754, -0.88555556) absorption]

/-! ## Batch partitioning (`run_optimization_in_batches`, lines 93-113) -/

/-- Index selector built for batch `i` by `run_optimization_in_batches`:
`batch_size = int(wl_n / batch_n)`, `step_size = int(wl_n / batch_size)`,
`selector = [i + j*step_size for j in range(batch_size)]`. -/
def batchSelector (wl_n batch_n i : ℕ) : List ℕ :=
  let batch_size := wl_n / batch_n
  let step_size := wl_n / batch_size
  (List.range batch_size).map (fun j => i + j * step_size)

/-- The whole sequence of index selectors produced by
`run_optimization_in_batches`: one per `i in range(batch_n)`, plus the
final-index selector `[wl_n - 1]` exactly when `wl_n % batch_n != 0`. -/
def batchSelectors (wl_n batch_n : ℕ) : List (List ℕ) :=
  let main := (List.range batch_n).map (fun i => batchSelector wl_n batch_n i)
  if wl_n % batch_n ≠ 0 then main ++ [[wl_n - 1]] else main

/-- Modelled from the spec: the selection the claim asserts for batch
`i` — the indices `i, i+batch_n, i+2*batch_n, …` that are below `wl_n`. -/
def claimedBatchSelector (wl_n batch_n i : ℕ) : List ℕ :=
  (List.range wl_n).filter (fun k => i ≤ k && (k - i) % batch_n == 0)

/-! ## Spectral down-sampling (`run_optimization`, lines 141-143) -/

/-- The down-sampling step of `run_optimization`:
`if resolution is not 1: targets = targets[0:-1:resolution]`.
The Python slice `[0:-1:resolution]` keeps the elements at indices
`0, resolution, 2*resolution, …` that are strictly below `len - 1`. -/
def apply_resolution {α : Type} (targets : List α) (resolution : ℕ) : List α :=
  if resolution = 1 then targets
  else ((List.range (targets.length - 1)).filter (fun idx => idx % resolution == 0)).filterMap
    (fun idx => targets[idx]?)

/-- Modelled from the spec: keep every `resolution`-th entry of the
list, indices `0, resolution, 2*resolution, …` up to the end of the
list. -/
def claimedResolutionKeep {α : Type} (targets : List α) (resolution : ℕ) : List α :=
  ((List.range targets.length).filter (fun idx => idx % resolution == 0)).filterMap
    (fun idx => targets[idx]?)

/-! ## Per-wavelength driver (`optimize_single_wl`, lines 287-461) -/

/-- A parameter vector `x = [x0, x1, x2, x3]`: absorption density,
scattering density, scattering anisotropy, mix factor. -/
structure Params where
  a : ℚ
  b : ℚ
  c : ℚ
  d : ℚ
  deriving DecidableEq, Repr

/-- The external simulator, as the core sees it: `B.run_render_single`
followed by the two `DU.get_relative_refl_or_tran` reads.  Arguments:
wavelength, scaled absorption density, scaled scattering density,
scattering anisotropy, mix factor; result: `(r, t)`. -/
structure SimOracle where
  render : ℚ → ℚ → ℚ → ℚ → ℚ → ℚ × ℚ

/-- One entry `[*x, r, t]` appended to `history` by the objective `f`. -/
structure HistRec where
  a : ℚ
  b : ℚ
  c : ℚ
  d : ℚ
  r : ℚ
  t : ℚ
  deriving DecidableEq, Repr

/-- The record appended by one call of the objective `f(x)`: render with
the densities pre-scaled by `density_scale`, read back `(r, t)`, and log
`[*x, r, t]`. -/
def evalRecord (oracle : SimOracle) (wl : ℚ) (x : Params) : HistRec :=
  let rt := oracle.render wl (x.a * density_scale) (x.b * density_scale) x.c x.d
  ⟨x.a, x.b, x.c, x.d, rt.1, rt.2⟩

/-- A scipy optimization routine, abstracted: the parameter vectors at
which it evaluates the objective (in call order), and the vector
`res.x` it returns.  Quantifying over all `Strategy` values covers
every behaviour of the external library, including returning a vector
it never evaluated last. -/
structure Strategy where
  evals : List Params
  ret : Params
  deriving DecidableEq, Repr

/-- Per-wavelength fit outcome, persisted as `wl_XXXX.toml`
(`res_dict`, lines 432-453).  The six parallel history arrays of the
source are stored as the single list `hist` of their rows. -/
structure Subresult where
  wl : ℚ
  r_measured : ℚ
  t_measured : ℚ
  r_modeled : ℚ
  t_modeled : ℚ
  r_error : ℚ
  t_error : ℚ
  iterations : ℕ
  optimizer : String
  elapsed_s : ℚ
  hist : List HistRec
  deriving DecidableEq, Repr

/-- Observable state of one optimization set: the persisted subresults
(keyed by wavelength, in write order) and how many times the simulator
(`B.run_render_single`) has been invoked. -/
structure OptState where
  subresults : List (ℚ × Subresult)
  renderCalls : ℕ
  deriving DecidableEq, Repr

/-- `FH.subresult_exists(set_name, wl)`: the checkpoint marker. -/
def subresult_exists (st : OptState) (wl : ℚ) : Bool :=
  st.subresults.any (fun p => p.1 == wl)

/-- The four-way optimizer dispatch of `optimize_single_wl`
(lines 373-425): each recognized name selects its scipy routine, any
other name raises
`Exception(f"Optimization method '{opt_method}' not recognized.")`. -/
def strategyFor (opt_method : String) (lsq shgo anneal basin : Strategy) :
    Except String Strategy :=
  if opt_method = "least_squares" then .ok lsq
  else if opt_method = "shgo" then .ok shgo
  else if opt_method = "anneal" then .ok anneal
  else if opt_method = "basin_hopping" then .ok basin
  else .error ("Optimization method " ++ opt_method ++ " not recognized.")

/-- The seed record `history.append([*x_0, 0.0, 0.0])` (line 369),
with `x_0 = get_starting_guess(1 - (r_m + t_m))` (line 366): the
starting guess with placeholder `(0, 0)` modeled outputs. -/
def seedRecord (r_m t_m : ℚ) : HistRec :=
  let x_0 := get_starting_guess (1 - (r_m + t_m))
  ⟨x_0.getD 0 0, x_0.getD 1 0, x_0.getD 2 0, x_0.getD 3 0, 0, 0⟩

/-- The full evaluation history of one fit: the seed record, then one
record per objective call made by the strategy, then the record of the
forced extra evaluation `f(res.x)` (line 430). -/
def runHistory (oracle : SimOracle) (wl r_m t_m : ℚ) (strat : Strategy) : List HistRec :=
  seedRecord r_m t_m :: strat.evals.map (evalRecord oracle wl) ++ [evalRecord oracle wl strat.ret]

/-- The `res_dict` persisted by `T.write_subresult` (lines 432-453):
modeled outputs and absolute errors come from the last history record
(`history[-1]`, which is the record of `f(res.x)`), and
`iterations = len(history) - 1`. -/
def buildSubresult (oracle : SimOracle) (wl r_m t_m : ℚ) (opt_method : String)
    (elapsed : ℚ) (strat : Strategy) : Subresult :=
  let finalRec := evalRecord oracle wl strat.ret
  let hist := runHistory oracle wl r_m t_m strat
  { wl := wl
    r_measured := r_m
    t_measured := t_m
    r_modeled := finalRec.r
    t_modeled := finalRec.t
    r_error := |finalRec.r - r_m|
    t_error := |finalRec.t - t_m|
    iterations := hist.length - 1
    optimizer := opt_method
    elapsed_s := elapsed
    hist := hist }

/-- `optimize_single_wl(wl, r_m, t_m, set_name, opt_method)`:

1. if a subresult for `wl` exists, return immediately (state unchanged,
   lines 292-294);
2. render once in reference mode (one simulator call, lines 337-347);
3. seed `history` with `[*x_0, 0.0, 0.0]`;
4. dispatch on `opt_method` (raising on an unrecognized name);
5. let the chosen routine evaluate the objective at its chosen points
   (one simulator call and one history record each);
6. evaluate once more at the returned vector `res.x` (`f(res.x)`);
7. build and persist the subresult (`elapsed` stands for the measured
   wall time of this fit). -/
def optimize_single_wl (oracle : SimOracle) (lsq shgo anneal basin : Strategy)
    (wl r_m t_m : ℚ) (opt_method : String) (elapsed : ℚ) (st : OptState) :
    Except String OptState :=
  if subresult_exists st wl then .ok st
  else
    match strategyFor opt_method lsq shgo anneal basin with
    | .error e => .error e
    | .ok strat =>
      .ok { subresults :=
              st.subresults ++ [(wl, buildSubresult oracle wl r_m t_m opt_method elapsed strat)]
            renderCalls := st.renderCalls + 1 + strat.evals.length + 1 }

/-! ## Objective value (`f` inside `optimize_single_wl`, lines 305-333)
and the basin-hopping callback (lines 404-411) -/

/-- The value returned by the objective `f(x)` once the simulator has
produced `(r, t)`: `dist = sqrt((r-r_m)² + (t-t_m)²) * density_scale`,
plus `penalty = 1e6` exactly when `r + t > 1`. -/
noncomputable def f_value (r_m t_m r t : ℝ) : ℝ :=
  let dist := Real.sqrt ((r - r_m) * (r - r_m) + (t - t_m) * (t - t_m)) * (density_scale : ℝ)
  let penalty : ℝ := if r + t > 1 then 1000000 else 0
  dist + penalty

/-- The basin-hopping `callback(x, f, accepted)`: returns `True` when
`f <= ftol_abs` and (implicitly) `None` otherwise.  scipy stops the
outer loop exactly when the callback returns a truthy value. -/
def basin_callback (x : Params) (fval : ℚ) (accepted : Bool) : Option Bool :=
  if fval ≤ ftol_abs then some true else none

/-! ## Aggregator (`make_final_result`, lines 464-510) -/

/-- The persisted `final_result.toml` record (the fields the claims
concern; the remaining arrays are per-wavelength projections of the
subresult list). -/
structure FinalResult where
  wall_clock_elapsed_min : ℚ
  process_elapsed_min : ℚ
  r_RMSE : ℝ
  t_RMSE : ℝ
  optimizer : String
  wls : List ℚ
  refls_error : List ℚ
  trans_error : List ℚ

/-- The record `make_final_result` builds from the collected
subresults:

* wall clock: the current run's `wall_clock_time_min`, plus the
  previous final result's wall clock when one could be read (`prior =
  some _`); a read failure (`OSError`, `prior = none`) is ignored;
* process time: `np.sum(elapsed_s) / 60`, recomputed from the current
  subresult list only;
* RMSE: `np.sqrt(np.mean(error**2))` for reflectance and
  transmittance. -/
noncomputable def aggregate (prior : Option FinalResult) (wall_clock_time_min : ℚ)
    (subreslist : List Subresult) : FinalResult :=
  let wall := match prior with
    | some previous => wall_clock_time_min + previous.wall_clock_elapsed_min
    | none => wall_clock_time_min
  { wall_clock_elapsed_min := wall
    process_elapsed_min := (subreslist.map (fun s => s.elapsed_s)).sum / 60
    r_RMSE := Real.sqrt ((subreslist.map (fun s => ((s.r_error : ℝ)) ^ 2)).sum /
      (subreslist.length : ℝ))
    t_RMSE := Real.sqrt ((subreslist.map (fun s => ((s.t_error : ℝ)) ^ 2)).sum /
      (subreslist.length : ℝ))
    optimizer := ((subreslist.head?).map (fun s => s.optimizer)).getD ""
    wls := subreslist.map (fun s => s.wl)
    refls_error := subreslist.map (fun s => s.r_error)
    trans_error := subreslist.map (fun s => s.t_error) }

/-- `make_final_result(set_name, wall_clock_time_min)`: on an empty
subresult list the source crashes at `subreslist[0]` before writing
anything, so nothing is persisted (`none`); otherwise the aggregate
record is written. -/
noncomputable def make_final_result (prior : Option FinalResult)
    (wall_clock_time_min : ℚ) (subreslist : List Subresult) : Option FinalResult :=
  if subreslist = [] then none
  else some (aggregate prior wall_clock_time_min subreslist)

/-! ## Theorems -/

/-- C6 counterexample: for `wl_n = 10`, `batch_n = 3`, batch 0 selects
`[0, 3, 6]` (`batch_size = 3` entries with stride
`step_size = int(10 / 3) = 3`), not the claimed
`{0, 3, 6, 9}` (all indices `0, 3, 6, 9` below 10).  The claim as
stated is therefore false at this input. -/
theorem C6_batch_counterexample :
    batchSelector 10 3 0 = [0, 3, 6] ∧
    claimedBatchSelector 10 3 0 = [0, 3, 6, 9] ∧
    batchSelector 10 3 0 ≠ claimedBatchSelector 10 3 0 := by decide

/-- C6 (amended): batch `i` consists of `batch_size = wl_n / batch_n`
indices of stride `step_size = wl_n / batch_size`; when `batch_n`
divides `wl_n` this is exactly the claimed set — the indices `k` with
`i ≤ k < wl_n` and `k ≡ i (mod batch_n)` — and one extra batch
containing only the final index `wl_n - 1` runs exactly when `wl_n` is
not evenly divisible by `batch_n`. -/
theorem C6_strided_batches (wl_n batch_n i k : ℕ) (hb : 0 < batch_n) (hi : i < batch_n) :
    (batch_n ∣ wl_n →
      (k ∈ batchSelector wl_n batch_n i ↔ (i ≤ k ∧ k < wl_n ∧ (k - i) % batch_n = 0)))
    ∧ (wl_n % batch_n ≠ 0 → (batchSelectors wl_n batch_n).getLast? = some [wl_n - 1])
    ∧ (wl_n % batch_n = 0 → (batchSelectors wl_n batch_n).length = batch_n) := by
  refine ⟨?_, ?_, ?_⟩
  · rintro ⟨m, rfl⟩
    by_cases hm : m = 0
    · subst hm
      simp [batchSelector]
    · have hmpos : 0 < m := Nat.pos_of_ne_zero hm
      have hdiv : batch_n * m / batch_n = m := Nat.mul_div_cancel_left m hb
      have hdiv2 : batch_n * m / m = batch_n := by
        rw [Nat.mul_comm batch_n m]
        exact Nat.mul_div_cancel_left batch_n hmpos
      simp only [batchSelector, hdiv, hdiv2, List.mem_map, List.mem_range]
      constructor
      · rintro ⟨j, hj, rfl⟩
        refine ⟨Nat.le_add_right _ _, ?_, by simp [Nat.mul_mod_left]⟩
        have hj1 : j + 1 ≤ m := hj
        calc i + j * batch_n < batch_n + j * batch_n := by omega
          _ = (j + 1) * batch_n := by ring
          _ ≤ m * batch_n := Nat.mul_le_mul_right _ hj1
          _ = batch_n * m := Nat.mul_comm _ _
      · rintro ⟨hik, hkw, hmod⟩
        have hdvd : batch_n ∣ (k - i) := Nat.dvd_of_mod_eq_zero hmod
        have hcancel : (k - i) / batch_n * batch_n = k - i := Nat.div_mul_cancel hdvd
        refine ⟨(k - i) / batch_n, ?_, by rw [hcancel]; omega⟩
        have hlt : (k - i) / batch_n * batch_n < m * batch_n := by
          rw [hcancel, Nat.mul_comm m batch_n]
          omega
        exact Nat.lt_of_mul_lt_mul_right hlt
  · intro h
    rw [batchSelectors, if_pos h]
    exact List.getLast?_concat _
  · intro h
    rw [batchSelectors, if_neg (by omega)]
    simp

/-- C6 witness: the amended statement instantiated at `wl_n = 12`,
`batch_n = 3`, `i = 1`, `k = 7`. -/
theorem C6_strided_batches_witness :
    (0 < 3 ∧ 1 < 3) ∧
    ((3 ∣ 12 → (7 ∈ batchSelector 12 3 1 ↔ (1 ≤ 7 ∧ 7 < 12 ∧ (7 - 1) % 3 = 0)))
      ∧ (12 % 3 ≠ 0 → (batchSelectors 12 3).getLast? = some [12 - 1])
      ∧ (12 % 3 = 0 → (batchSelectors 12 3).length = 3)) :=
  ⟨⟨by decide, by decide⟩, C6_strided_batches 12 3 1 7 (by decide) (by decide)⟩

/-- C7 counterexample: for the three-element target list `[0, 1, 2]`
and `resolution = 2`, the code's slice `targets[0:-1:2]` keeps only
`[0]`, while the claim (keep indices `0, 2, 4, …` up to the end of the
list) would keep `[0, 2]`.  The claim as stated is therefore false at
this input. -/
theorem C7_downsampling_counterexample :
    apply_resolution [(0 : ℕ), 1, 2] 2 = [0] ∧
    claimedResolutionKeep [(0 : ℕ), 1, 2] 2 = [0, 2] ∧
    apply_resolution [(0 : ℕ), 1, 2] 2 ≠ claimedResolutionKeep [(0 : ℕ), 1, 2] 2 := by
  decide

/-- C7 (amended): `resolution = 1` keeps every entry; any other
resolution keeps every `resolution`-th entry of the list with its final
entry removed (the slice `[0:-1:resolution]` stops before the last
element), i.e. the indices `0, resolution, 2*resolution, …` strictly
below `length - 1`. -/
theorem C7_downsampling (α : Type) (targets : List α) (resolution : ℕ) :
    apply_resolution targets 1 = targets
    ∧ (resolution ≠ 1 →
        apply_resolution targets resolution = claimedResolutionKeep targets.dropLast resolution) := by
  constructor
  · simp [apply_resolution]
  · intro h
    simp only [apply_resolution, claimedResolutionKeep, if_neg h, List.length_dropLast]
    apply List.filterMap_congr
    intro idx hidx
    have hlt : idx < targets.length - 1 := List.mem_range.mp (List.mem_filter.mp hidx).1
    rw [List.dropLast_eq_take, List.getElem?_take, if_pos hlt]

/-- C7 witness: the amended statement at the concrete list
`[0, 1, 2, 3, 4]` with `resolution = 2`. -/
theorem C7_downsampling_witness :
    apply_resolution [(0 : ℕ), 1, 2, 3, 4] 2
      = claimedResolutionKeep (List.dropLast [(0 : ℕ), 1, 2, 3, 4]) 2 :=
  (C7_downsampling ℕ [0, 1, 2, 3, 4] 2).2 (by decide)

/-- C8: for every proxy value `x ∈ [0, 1]`, the starting guess lies
componentwise within the declared bounds: the two densities in
`[0.01, 1]`, the anisotropy in `[-0.5, 0.5]`, the mix factor in
`[0, 1]`. -/
theorem C8_guess_within_bounds (x : ℚ) (h0 : 0 ≤ x) (h1 : x ≤ 1) :
    List.Forall₂ (fun bo v => bo.1 ≤ v ∧ v ≤ bo.2) (lb.zip ub) (get_starting_guess x) := by
  have hxx : x * x ≤ x := by nlinarith
  have hxx0 : 0 ≤ x * x := mul_nonneg h0 h0
  simp only [lb, ub, get_starting_guess, quad_eval, List.zip_cons_cons, List.zip_nil_right,
    List.forall₂_cons, List.Forall₂.nil, List.forall₂_nil_right_iff, and_true]
  refine ⟨⟨?_, ?_⟩, ⟨?_, ?_⟩, ⟨?_, ?_⟩, ⟨?_, ?_⟩⟩
  · nlinarith
  · nlinarith
  · nlinarith
  · nlinarith
  · nlinarith
  · nlinarith
  · nlinarith
  · nlinarith [sq_nonneg (2 * (0.88555556 : ℚ) * x - 0.2839754)]

/-- C8 witness: the bounds hold at the concrete proxy value `1/2`. -/
theorem C8_guess_within_bounds_witness :
    (0 ≤ (1/2 : ℚ) ∧ (1/2 : ℚ) ≤ 1) ∧
    List.Forall₂ (fun bo v => bo.1 ≤ v ∧ v ≤ bo.2) (lb.zip ub) (get_starting_guess (1/2)) :=
  ⟨⟨by norm_num, by norm_num⟩, C8_guess_within_bounds (1/2) (by norm_num) (by norm_num)⟩

/-- C3: whenever the simulated pair satisfies `r + t > 1` the objective
value is at least `1e6`; whenever `r + t ≤ 1` and `r`, `t`, `r_m`,
`t_m` all lie in `[0, 1]`, it is strictly below `1e6` (the
density-scale-weighted distance is at most `200 * sqrt 4 = 400`). -/
theorem C3_penalty_dominates (r_m t_m r t : ℝ) :
    (r + t > 1 → f_value r_m t_m r t ≥ 1000000)
    ∧ (r + t ≤ 1 → 0 ≤ r → r ≤ 1 → 0 ≤ t → t ≤ 1 → 0 ≤ r_m → r_m ≤ 1 → 0 ≤ t_m → t_m ≤ 1 →
        f_value r_m t_m r t < 1000000) := by
  have hds : ((density_scale : ℚ) : ℝ) = 200 := by norm_num [density_scale]
  constructor
  · intro h
    simp only [f_value, if_pos h, hds]
    have h1 : 0 ≤ Real.sqrt ((r - r_m) * (r - r_m) + (t - t_m) * (t - t_m)) * 200 :=
      mul_nonneg (Real.sqrt_nonneg _) (by norm_num)
    linarith
  · intro hrt hr0 hr1 ht0 ht1 hm0 hm1 hn0 hn1
    simp only [f_value, if_neg (not_lt.mpr hrt), hds, add_zero]
    have hb : (r - r_m) * (r - r_m) + (t - t_m) * (t - t_m) ≤ 4 := by nlinarith
    have hs : Real.sqrt ((r - r_m) * (r - r_m) + (t - t_m) * (t - t_m)) ≤ 2 := by
      have h2 : Real.sqrt ((r - r_m) * (r - r_m) + (t - t_m) * (t - t_m)) ≤ Real.sqrt 4 :=
        Real.sqrt_le_sqrt hb
      have h4 : Real.sqrt 4 = 2 := by
        rw [show (4 : ℝ) = 2 ^ 2 by norm_num, Real.sqrt_sq (by norm_num)]
      linarith
    nlinarith [Real.sqrt_nonneg ((r - r_m) * (r - r_m) + (t - t_m) * (t - t_m))]

/-- C3 witness: the infeasible pair `r = t = 0.7` is penalized to at
least `1e6`, while the feasible pair `r = 0.3, t = 0.4` against
measured `r_m = t_m = 0.5` stays strictly below `1e6`. -/
theorem C3_penalty_dominates_witness :
    ((0.7 : ℝ) + 0.7 > 1 ∧ f_value 0 0 0.7 0.7 ≥ 1000000)
    ∧ ((0.3 : ℝ) + 0.4 ≤ 1 ∧ f_value 0.5 0.5 0.3 0.4 < 1000000) :=
  ⟨⟨by norm_num, (C3_penalty_dominates 0 0 0.7 0.7).1 (by norm_num)⟩,
   ⟨by norm_num, (C3_penalty_dominates 0.5 0.5 0.3 0.4).2 (by norm_num) (by norm_num)
      (by norm_num) (by norm_num) (by norm_num) (by norm_num) (by norm_num) (by norm_num)
      (by norm_num)⟩⟩

/-! ### Concrete fixtures for witnesses -/

/-- A subresult record with prescribed errors and elapsed time, for
concrete witness states. -/
def sampleSub (re te el : ℚ) : Subresult :=
  { wl := 500
    r_measured := 0.4
    t_measured := 0.3
    r_modeled := 0.4
    t_modeled := 0.3
    r_error := re
    t_error := te
    iterations := 1
    optimizer := "basin_hopping"
    elapsed_s := el
    hist := [] }

/-- A state that already holds a subresult for wavelength 500. -/
def sampleState : OptState :=
  { subresults := [(500, sampleSub 0.1 0.1 60)], renderCalls := 0 }

/-- The empty pre-state: nothing persisted, no render calls yet. -/
def emptyState : OptState := ⟨[], 0⟩

/-- A trivial strategy oracle. -/
def zeroStrategy : Strategy := ⟨[], ⟨0, 0, 0, 0⟩⟩

/-- A strategy that evaluates one point and returns a different one. -/
def witStrategy : Strategy := ⟨[⟨1, 1, 0, 1⟩], ⟨0.5, 0.5, 0, 0.5⟩⟩

/-- A constant simulator oracle. -/
def constOracle : SimOracle := ⟨fun _ _ _ _ _ => (0.25, 0.25)⟩

/-- C10: the basin-hopping early-accept callback signals the outer loop
to stop exactly when the candidate's objective value is at or below the
absolute threshold `ftol_abs = 1.0` — for any candidate and any hop —
and returns no stop signal (Python `None`) whenever the value exceeds
the threshold.  The `accepted` flag and the hop budget play no role. -/
theorem C10_early_accept_callback (x : Params) (fval : ℚ) (accepted : Bool) :
    (basin_callback x fval accepted = some true ↔ fval ≤ ftol_abs)
    ∧ (ftol_abs < fval → basin_callback x fval accepted = none) := by
  constructor
  · unfold basin_callback
    split
    · simp_all
    · simp_all
  · intro h
    unfold basin_callback
    rw [if_neg (not_le.mpr h)]

/-- C10 witness: an accepted candidate at value `1/2 ≤ 1` signals stop,
a candidate at value `2 > 1` does not. -/
theorem C10_early_accept_callback_witness :
    (basin_callback ⟨0, 0, 0, 0⟩ (1/2) true = some true ↔ (1/2 : ℚ) ≤ ftol_abs)
    ∧ (ftol_abs < 2 ∧ basin_callback ⟨0, 0, 0, 0⟩ 2 true = none) :=
  ⟨(C10_early_accept_callback ⟨0, 0, 0, 0⟩ (1/2) true).1,
   ⟨by norm_num [ftol_abs],
    (C10_early_accept_callback ⟨0, 0, 0, 0⟩ 2 true).2 (by norm_num [ftol_abs])⟩⟩

/-- C1: when a subresult already exists for the wavelength, the driver
returns with the state unchanged — in particular the simulator call
counter is unchanged (zero render calls) and the persisted subresults,
including the existing one, are untouched. -/
theorem C1_checkpoint_skip (oracle : SimOracle) (lsq shgo anneal basin : Strategy)
    (wl r_m t_m : ℚ) (opt_method : String) (elapsed : ℚ) (st : OptState)
    (h : subresult_exists st wl = true) :
    optimize_single_wl oracle lsq shgo anneal basin wl r_m t_m opt_method elapsed st
      = Except.ok st := by
  simp [optimize_single_wl, h]

/-- C1 witness: skipping at wavelength 500 on a state that already
holds a subresult for it. -/
theorem C1_checkpoint_skip_witness :
    subresult_exists sampleState 500 = true ∧
    optimize_single_wl constOracle zeroStrategy zeroStrategy zeroStrategy zeroStrategy
      500 0.4 0.3 "basin_hopping" 1 sampleState = Except.ok sampleState :=
  ⟨by decide, C1_checkpoint_skip _ _ _ _ _ _ _ _ _ _ _ (by decide)⟩

/-- C9: for any optimizer identifier other than the four recognized
names, the driver raises (returns the exception message) and never
produces a post-state — so no subresult is persisted and there is no
fallback strategy. -/
theorem C9_unrecognized_optimizer (oracle : SimOracle) (lsq shgo anneal basin : Strategy)
    (wl r_m t_m : ℚ) (opt_method : String) (elapsed : ℚ) (st : OptState)
    (h1 : opt_method ≠ "least_squares") (h2 : opt_method ≠ "shgo")
    (h3 : opt_method ≠ "anneal") (h4 : opt_method ≠ "basin_hopping")
    (h : subresult_exists st wl = false) :
    optimize_single_wl oracle lsq shgo anneal basin wl r_m t_m opt_method elapsed st
      = Except.error ("Optimization method " ++ opt_method ++ " not recognized.")
    ∧ ∀ st', optimize_single_wl oracle lsq shgo anneal basin wl r_m t_m opt_method elapsed st
        ≠ Except.ok st' := by
  have hstrat : strategyFor opt_method lsq shgo anneal basin
      = Except.error ("Optimization method " ++ opt_method ++ " not recognized.") := by
    simp [strategyFor, h1, h2, h3, h4]
  have hmain : optimize_single_wl oracle lsq shgo anneal basin wl r_m t_m opt_method elapsed st
      = Except.error ("Optimization method " ++ opt_method ++ " not recognized.") := by
    simp [optimize_single_wl, h, hstrat]
  refine ⟨hmain, fun st' hc => ?_⟩
  rw [hmain] at hc
  exact Except.noConfusion hc

/-- C9 witness: the identifier `"powell"` is rejected on the empty
state. -/
theorem C9_unrecognized_optimizer_witness :
    optimize_single_wl constOracle zeroStrategy zeroStrategy zeroStrategy zeroStrategy
      500 0.4 0.3 "powell" 1 emptyState
      = Except.error ("Optimization method " ++ "powell" ++ " not recognized.")
    ∧ ∀ st', optimize_single_wl constOracle zeroStrategy zeroStrategy zeroStrategy zeroStrategy
        500 0.4 0.3 "powell" 1 emptyState ≠ Except.ok st' :=
  C9_unrecognized_optimizer _ _ _ _ _ _ _ _ _ _ _
    (by decide) (by decide) (by decide) (by decide) (by decide)

/-- C2: for every recognized optimizer identifier and every behaviour
of the chosen strategy, the persisted history starts with the seed
record (the starting guess carrying placeholder `(0, 0)` outputs) and
ends with the record of the forced extra evaluation `f(res.x)` at the
vector the strategy returned — regardless of which point the strategy
evaluated last. -/
theorem C2_history_endpoints (oracle : SimOracle) (lsq shgo anneal basin : Strategy)
    (wl r_m t_m : ℚ) (opt_method : String) (elapsed : ℚ) (st : OptState)
    (hm : opt_method = "least_squares" ∨ opt_method = "shgo" ∨ opt_method = "anneal" ∨
      opt_method = "basin_hopping")
    (h : subresult_exists st wl = false) :
    ∃ strat sub st',
      strategyFor opt_method lsq shgo anneal basin = Except.ok strat ∧
      optimize_single_wl oracle lsq shgo anneal basin wl r_m t_m opt_method elapsed st
        = Except.ok st' ∧
      st'.subresults = st.subresults ++ [(wl, sub)] ∧
      sub.hist.head? = some (seedRecord r_m t_m) ∧
      (seedRecord r_m t_m).r = 0 ∧ (seedRecord r_m t_m).t = 0 ∧
      sub.hist.getLast? = some (evalRecord oracle wl strat.ret) := by
  have key : ∀ strat, strategyFor opt_method lsq shgo anneal basin = Except.ok strat →
      ∃ strat' sub st',
        strategyFor opt_method lsq shgo anneal basin = Except.ok strat' ∧
        optimize_single_wl oracle lsq shgo anneal basin wl r_m t_m opt_method elapsed st
          = Except.ok st' ∧
        st'.subresults = st.subresults ++ [(wl, sub)] ∧
        sub.hist.head? = some (seedRecord r_m t_m) ∧
        (seedRecord r_m t_m).r = 0 ∧ (seedRecord r_m t_m).t = 0 ∧
        sub.hist.getLast? = some (evalRecord oracle wl strat'.ret) := by
    intro strat hstrat
    refine ⟨strat, buildSubresult oracle wl r_m t_m opt_method elapsed strat,
      { subresults :=
          st.subresults ++ [(wl, buildSubresult oracle wl r_m t_m opt_method elapsed strat)]
        renderCalls := st.renderCalls + 1 + strat.evals.length + 1 },
      hstrat, ?_, rfl, rfl, rfl, rfl, ?_⟩
    · simp [optimize_single_wl, h, hstrat]
    · show ((seedRecord r_m t_m :: strat.evals.map (evalRecord oracle wl))
          ++ [evalRecord oracle wl strat.ret]).getLast?
        = some (evalRecord oracle wl strat.ret)
      exact List.getLast?_concat _
  rcases hm with rfl | rfl | rfl | rfl
  · exact key lsq rfl
  · exact key shgo rfl
  · exact key anneal rfl
  · exact key basin rfl

/-- C2 witness: the shgo branch on the empty state, with a strategy
that evaluates one point and returns a different one. -/
theorem C2_history_endpoints_witness :
    (("shgo" = "least_squares" ∨ "shgo" = "shgo" ∨ "shgo" = "anneal"
        ∨ "shgo" = "basin_hopping")
      ∧ subresult_exists emptyState 500 = false)
    ∧ ∃ strat sub st',
        strategyFor "shgo" zeroStrategy witStrategy zeroStrategy zeroStrategy
          = Except.ok strat ∧
        optimize_single_wl constOracle zeroStrategy witStrategy zeroStrategy zeroStrategy
          500 0.4 0.3 "shgo" 1 emptyState = Except.ok st' ∧
        st'.subresults = emptyState.subresults ++ [(500, sub)] ∧
        sub.hist.head? = some (seedRecord 0.4 0.3) ∧
        (seedRecord 0.4 0.3).r = 0 ∧ (seedRecord 0.4 0.3).t = 0 ∧
        sub.hist.getLast? = some (evalRecord constOracle 500 strat.ret) :=
  ⟨⟨Or.inr (Or.inl rfl), by decide⟩,
   C2_history_endpoints constOracle zeroStrategy witStrategy zeroStrategy zeroStrategy
     500 0.4 0.3 "shgo" 1 emptyState (Or.inr (Or.inl rfl)) (by decide)⟩

/-- C4: a first aggregator run (missing prior final result, i.e. the
`OSError` path, surfaced as no error) persists exactly its own
wall-clock input; a second run on top of the persisted first persists
the sum of the two inputs; and both runs recompute the process time
fresh as the sum of the elapsed times over their own current subresult
set, never accumulating it. -/
theorem C4_wall_clock_accumulation (w1 w2 : ℚ) (subs1 subs2 : List Subresult)
    (h1 : subs1 ≠ []) (h2 : subs2 ≠ []) :
    ∃ fr1 fr2,
      make_final_result none w1 subs1 = some fr1 ∧
      fr1.wall_clock_elapsed_min = w1 ∧
      make_final_result (some fr1) w2 subs2 = some fr2 ∧
      fr2.wall_clock_elapsed_min = w1 + w2 ∧
      fr1.process_elapsed_min = (subs1.map (fun s => s.elapsed_s)).sum / 60 ∧
      fr2.process_elapsed_min = (subs2.map (fun s => s.elapsed_s)).sum / 60 := by
  refine ⟨aggregate none w1 subs1, aggregate (some (aggregate none w1 subs1)) w2 subs2,
    ?_, rfl, ?_, ?_, rfl, rfl⟩
  · rw [make_final_result, if_neg h1]
  · rw [make_final_result, if_neg h2]
  · show w2 + (aggregate none w1 subs1).wall_clock_elapsed_min = w1 + w2
    show w2 + w1 = w1 + w2
    ring

/-- C4 witness: wall-clock inputs 5.0 then 3.0 minutes yield a
persisted wall clock of 8.0 minutes, with the process time of the
second run taken from its own subresult set only. -/
theorem C4_wall_clock_accumulation_witness :
    ∃ fr1 fr2,
      make_final_result none 5 [sampleSub 0.1 0.1 60] = some fr1 ∧
      fr1.wall_clock_elapsed_min = 5 ∧
      make_final_result (some fr1) 3 [sampleSub 0.1 0.1 60, sampleSub 0.2 0.2 30] = some fr2 ∧
      fr2.wall_clock_elapsed_min = 8 ∧
      fr2.process_elapsed_min = (60 + 30) / 60 := by
  obtain ⟨fr1, fr2, e1, e2, e3, e4, e5, e6⟩ :=
    C4_wall_clock_accumulation 5 3 [sampleSub 0.1 0.1 60]
      [sampleSub 0.1 0.1 60, sampleSub 0.2 0.2 30]
      (List.cons_ne_nil _ _) (List.cons_ne_nil _ _)
  refine ⟨fr1, fr2, e1, e2, e3, by rw [e4]; norm_num, by rw [e6]; norm_num [sampleSub]⟩

/-- C5: for every non-empty subresult set the persisted reflectance
RMSE is `sqrt(mean(error^2))` over the per-wavelength reflectance
errors, and likewise for transmittance. -/
theorem C5_rmse (prior : Option FinalResult) (w : ℚ) (subs : List Subresult)
    (h : subs ≠ []) :
    ∃ fr, make_final_result prior w subs = some fr ∧
      fr.r_RMSE
        = Real.sqrt ((subs.map (fun s => ((s.r_error : ℝ)) ^ 2)).sum / (subs.length : ℝ)) ∧
      fr.t_RMSE
        = Real.sqrt ((subs.map (fun s => ((s.t_error : ℝ)) ^ 2)).sum / (subs.length : ℝ)) := by
  refine ⟨aggregate prior w subs, ?_, rfl, rfl⟩
  rw [make_final_result, if_neg h]

/-- C5 witness: reflectance errors `[0.1, 0.2, 0.3]` yield
`RMSE = sqrt((0.01 + 0.04 + 0.09) / 3)`. -/
theorem C5_rmse_witness :
    ∃ fr, make_final_result none 0 [sampleSub 0.1 0.1 60, sampleSub 0.2 0.2 60,
        sampleSub 0.3 0.3 60] = some fr ∧
      fr.r_RMSE = Real.sqrt ((0.01 + 0.04 + 0.09) / 3) := by
  obtain ⟨fr, hfr, hr, ht⟩ := C5_rmse none 0
    [sampleSub 0.1 0.1 60, sampleSub 0.2 0.2 60, sampleSub 0.3 0.3 60]
    (List.cons_ne_nil _ _)
  refine ⟨fr, hfr, ?_⟩
  rw [hr]
  norm_num [sampleSub]

end HyperBlend
